import Mathlib

/-!
Shallow embedding of the incremental extraction core of tap-claricopilot
(src/tap_claricopilot/streams.py): the skip/limit paginator, the request
parameter builders of the Calls and CallDetails streams, and the response
normalization logic (timestamp conversion, Decimal-safe metrics JSON
encoding, 404 handling in the details stream).

Python JSON-like values are modelled by the mutual inductive `PyVal`;
dicts are insertion-ordered association lists with the usual unique-key
invariant expressed by `dNodupKeys` where a proof needs it.  Arbitrary
precision decimals and binary floats are both modelled by `Rat`; the
value-preserving `decimalToFloat` stands for Python float(Decimal), with
IEEE-754 rounding abstracted away (no claim depends on rounding).
-/

/-- Model of datetime.datetime: the calendar fields, plus microseconds so
that second-precision formatting is visible in the model. -/
structure PyDatetime where
  year : Nat
  month : Nat
  day : Nat
  hour : Nat
  minute : Nat
  second : Nat
  microsecond : Nat
deriving DecidableEq, Repr

mutual

/-- Python values as they occur in parsed JSON responses and records:
JSON scalars, lists and dicts, plus Decimal, datetime and opaque
non-JSON-serializable objects (used to model serialization failure). -/
inductive PyVal where
  | null : PyVal
  | bool (b : Bool) : PyVal
  | int (n : Int) : PyVal
  | float (q : Rat) : PyVal
  | str (s : String) : PyVal
  | decimal (q : Rat) : PyVal
  | datetime (t : PyDatetime) : PyVal
  | obj (name : String) : PyVal
  | list (xs : PyList) : PyVal
  | dict (d : PyDict) : PyVal
deriving DecidableEq

/-- Python list of values. -/
inductive PyList where
  | nil : PyList
  | cons (v : PyVal) (tl : PyList) : PyList
deriving DecidableEq

/-- Python dict with string keys, in insertion order. -/
inductive PyDict where
  | nil : PyDict
  | cons (k : String) (v : PyVal) (tl : PyDict) : PyDict
deriving DecidableEq

end

/-- Length of a modelled Python list. -/
def PyList.length : PyList → Nat
  | .nil => 0
  | .cons _ tl => 1 + tl.length

/-- List of n copies of a value, used to build concrete pages. -/
def PyList.replicate : Nat → PyVal → PyList
  | 0, _ => .nil
  | n + 1, v => .cons v (PyList.replicate n v)

/-- Number of entries of a modelled dict. -/
def PyDict.length : PyDict → Nat
  | .nil => 0
  | .cons _ _ tl => 1 + tl.length

/-- Dict lookup, Python d.get(key): first binding of the key. -/
def dGet : PyDict → String → Option PyVal
  | .nil, _ => none
  | .cons k v tl, key => if k == key then some v else dGet tl key

/-- Python `key in d`. -/
def dHas (d : PyDict) (key : String) : Bool :=
  (dGet d key).isSome

/-- Python d[key] = val: overwrite in place, or append a new binding. -/
def dSet : PyDict → String → PyVal → PyDict
  | .nil, key, val => .cons key val .nil
  | .cons k v tl, key, val =>
      if k == key then .cons k val tl else .cons k v (dSet tl key val)

/-- Python del d[key]: remove the binding of the key. -/
def dDel : PyDict → String → PyDict
  | .nil, _ => .nil
  | .cons k v tl, key => if k == key then tl else .cons k v (dDel tl key)

/-- Keys are pairwise distinct, the invariant of every real Python dict. -/
def dNodupKeys : PyDict → Bool
  | .nil => true
  | .cons k _ tl => !(dHas tl k) && dNodupKeys tl

/-- Python truthiness of a value (`if value:`). -/
def truthy : PyVal → Bool
  | .null => false
  | .bool b => b
  | .int n => !(n == 0)
  | .float q => !(decide (q = 0))
  | .str s => !(s == "")
  | .decimal q => !(decide (q = 0))
  | .datetime _ => true
  | .obj _ => true
  | .list xs => !(xs.length == 0)
  | .dict d => !(d.length == 0)

/-- Log events emitted by the modelled code paths, one constructor per
logging site that a claim mentions. -/
inductive LogEvt where
  | warnTimestamp (s : String) : LogEvt
  | warnMetrics : LogEvt
  | warnNoCallId : LogEvt
  | infoFetchDetails : LogEvt
  | info404 : LogEvt
  | warnNoCallKey : LogEvt
  | errorDetails : LogEvt
deriving DecidableEq, Repr

/-- Escape a string for a JSON string literal, the core of how json.dumps
renders str values (quote, backslash and the common control characters;
further control and non-ASCII escapes of the stdlib are not exercised by
any claim). -/
def jsonEscapeChar (c : Char) : String :=
  if c = '"' then "\\\""
  else if c = '\\' then "\\\\"
  else if c = '\n' then "\\n"
  else if c = '\r' then "\\r"
  else if c = '\t' then "\\t"
  else String.mk [c]

/-- Escape every character of a string for a JSON string literal. -/
def jsonEscape (s : String) : String :=
  String.join (s.data.map jsonEscapeChar)

/-- Python str.replace for a single-character pattern, the only shape the
source uses (s.replace("Z", "+00:00")): every occurrence of the pattern
character is replaced. -/
def pyReplace (pat : Char) (rep : String) (s : String) : String :=
  String.join (s.data.map (fun c => if c = pat then rep else String.mk [c]))

/-- Model of Python float(Decimal): both sides are modelled by their exact
rational value, so the conversion is value preserving (binary rounding is
abstracted away). -/
def decimalToFloat (q : Rat) : Rat := q

/-- Rendering of a modelled float as a JSON numeric literal. -/
def floatRepr (q : Rat) : String := toString q

mutual

/-- Model of json.JSONEncoder serialization with a pluggable default hook:
scalars, lists and dicts use the standard rules (default separators of
json.dumps), and any non-JSON-native value (Decimal, datetime, opaque
object) is passed to the hook, which returns its rendering or fails (the
TypeError of the stdlib encoder, modelled as none). -/
def serVal (hook : PyVal → Option String) : PyVal → Option String
  | .null => some "null"
  | .bool b => some (if b then "true" else "false")
  | .int n => some (toString n)
  | .float q => some (floatRepr q)
  | .str s => some ("\"" ++ jsonEscape s ++ "\"")
  | .list xs =>
      match serList hook xs with
      | some parts => some ("[" ++ String.intercalate ", " parts ++ "]")
      | none => none
  | .dict d =>
      match serDict hook d with
      | some parts => some ("\x7b" ++ String.intercalate ", " parts ++ "\x7d")
      | none => none
  | v => hook v

/-- Serialize each element of a list, failing if any element fails. -/
def serList (hook : PyVal → Option String) : PyList → Option (List String)
  | .nil => some []
  | .cons v tl =>
      match serVal hook v, serList hook tl with
      | some s, some rest => some (s :: rest)
      | _, _ => none

/-- Serialize each dict entry as a quoted key, colon-space, value. -/
def serDict (hook : PyVal → Option String) : PyDict → Option (List String)
  | .nil => some []
  | .cons k v tl =>
      match serVal hook v, serDict hook tl with
      | some s, some rest =>
          some (("\"" ++ jsonEscape k ++ "\": " ++ s) :: rest)
      | _, _ => none

end

/-- Hook of the base json.JSONEncoder: the default method always raises
TypeError on a non-JSON-native value. -/
def baseHook : PyVal → Option String := fun _ => none

/-- Hook of DecimalEncoder (streams.py lines 20-34): Decimal values are
converted to float and rendered as that float; everything else falls
through to the base encoder, which raises. -/
def decimalEncoderHook : PyVal → Option String := fun v =>
  match v with
  | .decimal q => some (floatRepr (decimalToFloat q))
  | _ => none

/-- json.dumps(value) with the stdlib default encoder. -/
def jsonDumpsStd (v : PyVal) : Option String := serVal baseHook v

/-- json.dumps(value, cls=DecimalEncoder), the serialization used for the
metrics field by both streams. -/
def jsonDumpsDecimalEncoder (v : PyVal) : Option String :=
  serVal decimalEncoderHook v

mutual

/-- Replace every Decimal value, nested arbitrarily deep, by its float
conversion; the reference transformation that the DecimalEncoder is
claimed to implement on top of standard serialization. -/
def mapDecimalsToFloat : PyVal → PyVal
  | .decimal q => .float (decimalToFloat q)
  | .list xs => .list (mapDecimalsToFloatList xs)
  | .dict d => .dict (mapDecimalsToFloatDict d)
  | v => v

/-- mapDecimalsToFloat on each element of a list. -/
def mapDecimalsToFloatList : PyList → PyList
  | .nil => .nil
  | .cons v tl => .cons (mapDecimalsToFloat v) (mapDecimalsToFloatList tl)

/-- mapDecimalsToFloat on each value of a dict. -/
def mapDecimalsToFloatDict : PyDict → PyDict
  | .nil => .nil
  | .cons k v tl => .cons k (mapDecimalsToFloat v) (mapDecimalsToFloatDict tl)

end

mutual

/-- A value built only from standard JSON-serializable pieces and
Decimals: no datetime and no opaque object anywhere. -/
def stdWithDecimals : PyVal → Bool
  | .datetime _ => false
  | .obj _ => false
  | .list xs => stdWithDecimalsList xs
  | .dict d => stdWithDecimalsDict d
  | _ => true

/-- stdWithDecimals for every element of a list. -/
def stdWithDecimalsList : PyList → Bool
  | .nil => true
  | .cons v tl => stdWithDecimals v && stdWithDecimalsList tl

/-- stdWithDecimals for every value of a dict. -/
def stdWithDecimalsDict : PyDict → Bool
  | .nil => true
  | .cons _ v tl => stdWithDecimals v && stdWithDecimalsDict tl

end

/-- State of ClariPaginator (streams.py lines 40-89): the configured page
size (self._limit) and the current skip offset (self._current_skip), the
only attributes its get_next reads or writes. -/
structure ClariPaginator where
  limit : Nat
  currentSkip : Nat
deriving DecidableEq, Repr

/-- Default of the start_value parameter of ClariPaginator.__init__. -/
def ClariPaginator.defaultStartValue : Nat := 0

/-- Default of the page_size parameter of ClariPaginator.__init__. -/
def ClariPaginator.defaultPageSize : Nat := 50

/-- ClariPaginator.__init__(start_value, page_size): stores the page size
and starts the skip offset at start_value. -/
def ClariPaginator.init (startValue pageSize : Nat) : ClariPaginator :=
  ⟨pageSize, startValue⟩

/-- ClariPaginator.get_next (streams.py lines 62-80), on the calls array
extracted from the response body (data.get("calls", [])): if fewer
records than the limit were returned, pagination ends (none); otherwise
the skip offset advances by the limit and is returned as the next token.
Returns the token together with the updated paginator state. -/
def ClariPaginator.getNext (p : ClariPaginator) (calls : PyList) :
    Option Nat × ClariPaginator :=
  if calls.length < p.limit then
    (none, p)
  else
    (some (p.currentSkip + p.limit), ⟨p.limit, p.currentSkip + p.limit⟩)

/-- CallsStream.get_new_paginator (streams.py lines 174-180):
ClariPaginator(page_size=100), with the default start value 0. -/
def callsStreamPaginator : ClariPaginator :=
  ClariPaginator.init ClariPaginator.defaultStartValue 100

/-- CallsStream.replication_key (streams.py line 98). -/
def callsReplicationKey : String := "last_modified_time"

/-- Zero-pad the decimal rendering of a number to a given width, as the
numeric strftime directives do. -/
def zpad (w k : Nat) : String :=
  let s := toString k
  String.mk (List.replicate (w - s.length) '0') ++ s

/-- strftime("%Y-%m-%dT%H:%M:%SZ") on a modelled datetime: calendar
fields zero-padded at second precision with a literal Z; the microsecond
field does not appear. -/
def strftimeISOZ (t : PyDatetime) : String :=
  zpad 4 t.year ++ "-" ++ zpad 2 t.month ++ "-" ++ zpad 2 t.day ++ "T" ++
    zpad 2 t.hour ++ ":" ++ zpad 2 t.minute ++ ":" ++ zpad 2 t.second ++ "Z"

/-- CallsStream.get_url_params (streams.py lines 182-214).  The bookmark
argument models self.get_starting_timestamp(context), supplied by the
external orchestration framework; the token argument models
next_page_token, an integer skip offset from the paginator or absent.
The skip parameter is added under Python truthiness of the token, and the
filterModifiedGt parameter is added when the (truthy) replication key and
a bookmark are present, formatted by strftime at second precision. -/
def callsGetUrlParams (bookmark : Option PyDatetime) (token : Option Int) :
    PyDict :=
  let params : PyDict :=
    .cons "limit" (.int 100)
      (.cons "includePagination" (.str "false")
        (.cons "includePrivate" (.str "false")
          (.cons "filterStatus"
            (.list (.cons (.str "PROCESSED")
              (.cons (.str "POST_PROCESSING_DONE") .nil))) .nil)))
  let params :=
    match token with
    | some n => if !(n == 0) then dSet params "skip" (.int n) else params
    | none => params
  if !(callsReplicationKey == "") && bookmark.isSome then
    match bookmark with
    | some t => dSet params "filterModifiedGt" (.str (strftimeISOZ t))
    | none => params
  else
    params

/-- Metrics normalization shared verbatim by CallsStream.parse_response
(streams.py lines 252-262) and CallDetailsStream.parse_response (lines
494-503): when a metrics field is present and not None, replace it by its
json.dumps(…, cls=DecimalEncoder) string; when that serialization raises
TypeError or ValueError, log a warning and delete the field. -/
def normalizeMetrics (r : PyDict) : PyDict × List LogEvt :=
  match dGet r "metrics" with
  | none => (r, [])
  | some v =>
      if v = .null then (r, [])
      else
        match jsonDumpsDecimalEncoder v with
        | some s => (dSet r "metrics" (.str s), [])
        | none => (dDel r "metrics", [.warnMetrics])

/-- Timestamp normalization of CallsStream.parse_response (streams.py
lines 241-251).  The parseIso argument models datetime.fromisoformat of
the stdlib: when the last_modified_time field is present and truthy and
is a string, every "Z" is replaced by "+00:00" and the parser is
applied; on success the field becomes the parsed datetime, on failure
(ValueError) a warning is logged and the field is left as the original
string; every other value is left untouched with no parse attempt. -/
def normalizeTimestamp (parseIso : String → Option PyDatetime)
    (r : PyDict) : PyDict × List LogEvt :=
  match dGet r "last_modified_time" with
  | some v =>
      if truthy v then
        match v with
        | .str s =>
            match parseIso (pyReplace 'Z' "+00:00" s) with
            | some t => (dSet r "last_modified_time" (.datetime t), [])
            | none => (r, [.warnTimestamp s])
        | _ => (r, [])
      else (r, [])
  | none => (r, [])

/-- Per-record body of CallsStream.parse_response (streams.py lines
241-264): the timestamp conversion followed by the metrics
normalization; the record is returned (yielded) in every case. -/
def normalizeCallRecord (parseIso : String → Option PyDatetime)
    (r : PyDict) : PyDict × List LogEvt :=
  let step1 := normalizeTimestamp parseIso r
  let step2 := normalizeMetrics step1.1
  (step2.1, step1.2 ++ step2.2)

/-- CallsStream.parse_response over the records extracted from a page by
the framework jsonpath ($.calls[*]): each record is normalized and
yielded, in order. -/
def callsParseResponse (parseIso : String → Option PyDatetime) :
    List PyDict → List PyDict × List LogEvt
  | [] => ([], [])
  | r :: rs =>
      let hd := normalizeCallRecord parseIso r
      let tl := callsParseResponse parseIso rs
      (hd.1 :: tl.1, hd.2 ++ tl.2)

/-- CallDetailsStream.get_url_params (streams.py lines 437-464): always
includeTranscript=true and includeSummary=true; under Python truthiness
of the context and of context.get("call_id"), the upstream parameter
named id (not callId) is set to the call_id and an info line is logged;
otherwise a warning is logged and the parameters are returned without an
id filter. -/
def detailsGetUrlParams (context : Option PyDict) : PyDict × List LogEvt :=
  let params : PyDict :=
    .cons "includeTranscript" (.str "true")
      (.cons "includeSummary" (.str "true") .nil)
  match context with
  | some c =>
      if truthy (.dict c) && truthy ((dGet c "call_id").getD .null) then
        (dSet params "id" ((dGet c "call_id").getD .null),
          [.infoFetchDetails])
      else
        (params, [.warnNoCallId])
  | none => (params, [.warnNoCallId])

/-- CallDetailsStream.validate_response (streams.py lines 279-295): a 404
status is logged and accepted as valid; every other status is delegated
to the framework base-class validation, modelled by the superValidate
argument. -/
def detailsValidateResponse (superValidate : Nat → Except String Unit)
    (status : Nat) : Except String Unit :=
  if status == 404 then .ok () else superValidate status

/-- An HTTP response as the details stream sees it: the status code and
the JSON body, with none modelling a body on which response.json()
raises. -/
structure DetailsResponse where
  status : Nat
  body : Option PyVal

/-- The metrics normalization of CallDetailsStream.parse_response
(streams.py lines 494-503), identical to the shared transform. -/
def normalizeDetailRecord (r : PyDict) : PyDict × List LogEvt :=
  normalizeMetrics r

/-- Python substring test, the meaning of `key in s` when s is a str. -/
def strContainsSub (s sub : String) : Bool :=
  (s.splitOn sub).length != 1

/-- Python `"metrics" == element` comparison used by `key in list`. -/
def pyListHasStr : PyList → String → Bool
  | .nil, _ => false
  | .cons (.str s) tl, key => s == key || pyListHasStr tl key
  | .cons _ tl, key => pyListHasStr tl key

/-- Processing of the extracted call object inside the try block of
CallDetailsStream.parse_response.  For a dict, the metrics transform runs
and the record is yielded.  For any other value, Python evaluates
`"metrics" in record`: on a str this is a substring test (and a hit then
raises on the string indexing), on a list an element comparison (a hit
raises on the list indexing), and on every other type it raises TypeError
at once; every raise is caught by the enclosing except, which logs an
error and yields nothing. -/
def processDetailCall : PyVal → List PyVal × List LogEvt
  | .dict r =>
      let out := normalizeDetailRecord r
      ([.dict out.1], out.2)
  | .str s =>
      if strContainsSub s "metrics" then ([], [.errorDetails])
      else ([.str s], [])
  | .list xs =>
      if pyListHasStr xs "metrics" then ([], [.errorDetails])
      else ([.list xs], [])
  | _ => ([], [.errorDetails])

/-- CallDetailsStream.parse_response (streams.py lines 466-510): a 404
yields nothing; a body on which response.json() raises yields nothing
(the outer except logs an error); a body that is not a dict or lacks a
"call" key yields nothing with a warning; otherwise the value at "call"
is processed and, when it is a record, yielded after the metrics
transform. -/
def detailsParseResponse (resp : DetailsResponse) :
    List PyVal × List LogEvt :=
  if resp.status == 404 then
    ([], [.info404])
  else
    match resp.body with
    | none => ([], [.errorDetails])
    | some j =>
        match j with
        | .dict d =>
            match dGet d "call" with
            | some record => processDetailCall record
            | none => ([], [.warnNoCallKey])
        | _ => ([], [.warnNoCallKey])



theorem dGet_dSet : ∀ (d : PyDict) (k k2 : String) (v : PyVal),
    dGet (dSet d k v) k2 = if k = k2 then some v else dGet d k2
  | .nil, k, k2, v => by
      simp [dSet, dGet, beq_iff_eq]
  | .cons k1 v1 tl, k, k2, v => by
      simp only [dSet, beq_iff_eq]
      by_cases h1 : k1 = k
      · subst h1
        simp only [if_pos rfl, dGet, beq_iff_eq]
        by_cases h2 : k1 = k2 <;> simp [h2]
      · rw [if_neg h1]
        simp only [dGet, beq_iff_eq, dGet_dSet tl k k2 v]
        by_cases h2 : k1 = k2
        · subst h2
          have hk : ¬k = k1 := fun hc => h1 hc.symm
          simp [hk]
        · simp [h2]

theorem dGet_dDel_ne : ∀ (d : PyDict) (k k2 : String), k ≠ k2 →
    dGet (dDel d k) k2 = dGet d k2
  | .nil, k, k2, _ => by simp [dDel, dGet]
  | .cons k1 v1 tl, k, k2, h => by
      simp only [dDel, beq_iff_eq]
      by_cases h1 : k1 = k
      · subst h1
        rw [if_pos rfl]
        simp only [dGet, beq_iff_eq]
        rw [if_neg h]
      · rw [if_neg h1]
        simp [dGet, beq_iff_eq, dGet_dDel_ne tl k k2 h]

theorem dGet_eq_none_of_not_dHas (d : PyDict) (k : String)
    (h : dHas d k = false) : dGet d k = none := by
  unfold dHas at h
  cases hg : dGet d k with
  | none => rfl
  | some v => rw [hg] at h; simp at h

theorem dGet_dDel_self : ∀ (d : PyDict) (k : String),
    dNodupKeys d = true → dGet (dDel d k) k = none
  | .nil, k, _ => by simp [dDel, dGet]
  | .cons k1 v1 tl, k, h => by
      simp only [dNodupKeys, Bool.and_eq_true, Bool.not_eq_true'] at h
      simp only [dDel, beq_iff_eq]
      by_cases h1 : k1 = k
      · subst h1
        rw [if_pos rfl]
        exact dGet_eq_none_of_not_dHas tl k1 h.1
      · rw [if_neg h1]
        simp [dGet, beq_iff_eq, h1, dGet_dDel_self tl k h.2]

theorem dHas_dSet (d : PyDict) (k k2 : String) (v : PyVal) :
    dHas (dSet d k v) k2 = (decide (k = k2) || dHas d k2) := by
  unfold dHas
  rw [dGet_dSet]
  by_cases h : k = k2 <;> simp [h]

theorem dNodupKeys_dSet : ∀ (d : PyDict) (k : String) (v : PyVal),
    dNodupKeys d = true → dNodupKeys (dSet d k v) = true
  | .nil, k, v, _ => by simp [dSet, dNodupKeys, dHas, dGet]
  | .cons k1 v1 tl, k, v, h => by
      simp only [dNodupKeys, Bool.and_eq_true, Bool.not_eq_true'] at h
      simp only [dSet, beq_iff_eq]
      by_cases h1 : k1 = k
      · subst h1
        rw [if_pos rfl]
        simp [dNodupKeys, h.1, h.2]
      · rw [if_neg h1]
        simp only [dNodupKeys, Bool.and_eq_true, Bool.not_eq_true']
        refine ⟨?_, dNodupKeys_dSet tl k v h.2⟩
        rw [dHas_dSet]
        have hk : ¬k = k1 := fun hc => h1 hc.symm
        simp [hk, h.1]

theorem callsParseResponse_fst (p : String → Option PyDatetime)
    (rs : List PyDict) :
    (callsParseResponse p rs).1 =
      rs.map (fun r => (normalizeCallRecord p r).1) := by
  induction rs with
  | nil => rfl
  | cons r rs ih => simp [callsParseResponse, ih]

mutual

theorem serVal_decimal_eq : ∀ (v : PyVal),
    serVal decimalEncoderHook v = serVal baseHook (mapDecimalsToFloat v)
  | .null => rfl
  | .bool _ => rfl
  | .int _ => rfl
  | .float _ => rfl
  | .str _ => rfl
  | .decimal _ => rfl
  | .datetime _ => rfl
  | .obj _ => rfl
  | .list xs => by
      rw [show mapDecimalsToFloat (.list xs) = .list (mapDecimalsToFloatList xs)
        from rfl]
      simp only [serVal, serList_decimal_eq xs]
  | .dict d => by
      rw [show mapDecimalsToFloat (.dict d) = .dict (mapDecimalsToFloatDict d)
        from rfl]
      simp only [serVal, serDict_decimal_eq d]

theorem serList_decimal_eq : ∀ (xs : PyList),
    serList decimalEncoderHook xs =
      serList baseHook (mapDecimalsToFloatList xs)
  | .nil => rfl
  | .cons v tl => by
      simp only [mapDecimalsToFloatList, serList, serVal_decimal_eq v,
        serList_decimal_eq tl]

theorem serDict_decimal_eq : ∀ (d : PyDict),
    serDict decimalEncoderHook d =
      serDict baseHook (mapDecimalsToFloatDict d)
  | .nil => rfl
  | .cons k v tl => by
      simp only [mapDecimalsToFloatDict, serDict, serVal_decimal_eq v,
        serDict_decimal_eq tl]

end

mutual

theorem serVal_decimal_total : ∀ (v : PyVal), stdWithDecimals v = true →
    (serVal decimalEncoderHook v).isSome = true
  | .null, _ => rfl
  | .bool _, _ => rfl
  | .int _, _ => rfl
  | .float _, _ => rfl
  | .str _, _ => rfl
  | .decimal _, _ => rfl
  | .datetime _, h => by simp [stdWithDecimals] at h
  | .obj _, h => by simp [stdWithDecimals] at h
  | .list xs, h => by
      have hx := serList_decimal_total xs (by simpa [stdWithDecimals] using h)
      obtain ⟨parts, hp⟩ := Option.isSome_iff_exists.mp hx
      simp [serVal, hp]
  | .dict d, h => by
      have hx := serDict_decimal_total d (by simpa [stdWithDecimals] using h)
      obtain ⟨parts, hp⟩ := Option.isSome_iff_exists.mp hx
      simp [serVal, hp]

theorem serList_decimal_total : ∀ (xs : PyList),
    stdWithDecimalsList xs = true →
    (serList decimalEncoderHook xs).isSome = true
  | .nil, _ => rfl
  | .cons v tl, h => by
      simp only [stdWithDecimalsList, Bool.and_eq_true] at h
      have hv := serVal_decimal_total v h.1
      have ht := serList_decimal_total tl h.2
      obtain ⟨s, hs⟩ := Option.isSome_iff_exists.mp hv
      obtain ⟨rest, hr⟩ := Option.isSome_iff_exists.mp ht
      simp [serList, hs, hr]

theorem serDict_decimal_total : ∀ (d : PyDict),
    stdWithDecimalsDict d = true →
    (serDict decimalEncoderHook d).isSome = true
  | .nil, _ => rfl
  | .cons k v tl, h => by
      simp only [stdWithDecimalsDict, Bool.and_eq_true] at h
      have hv := serVal_decimal_total v h.1
      have ht := serDict_decimal_total tl h.2
      obtain ⟨s, hs⟩ := Option.isSome_iff_exists.mp hv
      obtain ⟨rest, hr⟩ := Option.isSome_iff_exists.mp ht
      simp [serDict, hs, hr]

end


theorem normalizeMetrics_preserves (r : PyDict) (k : String)
    (h : k ≠ "metrics") : dGet (normalizeMetrics r).1 k = dGet r k := by
  unfold normalizeMetrics
  have hne : ¬("metrics" = k) := fun hc => h hc.symm
  split
  · rfl
  · split
    · rfl
    · split
      · rw [dGet_dSet, if_neg hne]
      · exact dGet_dDel_ne r "metrics" k hne

theorem normalizeMetrics_no_warnTimestamp (r : PyDict) (u : String) :
    LogEvt.warnTimestamp u ∉ (normalizeMetrics r).2 := by
  unfold normalizeMetrics
  split
  · simp
  · split
    · simp
    · split <;> simp

theorem normalizeTimestamp_preserves (parseIso : String → Option PyDatetime)
    (r : PyDict) (k : String) (h : k ≠ "last_modified_time") :
    dGet (normalizeTimestamp parseIso r).1 k = dGet r k := by
  unfold normalizeTimestamp
  have hne : ¬("last_modified_time" = k) := fun hc => h hc.symm
  split
  · split
    · split
      · split
        · rw [dGet_dSet, if_neg hne]
        · rfl
      · rfl
    · rfl
  · rfl

theorem normalizeTimestamp_nodup (parseIso : String → Option PyDatetime)
    (r : PyDict) (h : dNodupKeys r = true) :
    dNodupKeys (normalizeTimestamp parseIso r).1 = true := by
  unfold normalizeTimestamp
  split
  · split
    · split
      · split
        · exact dNodupKeys_dSet r _ _ h
        · exact h
      · exact h
    · exact h
  · exact h

theorem normalizeMetrics_of_some (r : PyDict) (v : PyVal)
    (hnd : dNodupKeys r = true) (hm : dGet r "metrics" = some v)
    (hv : v ≠ .null) :
    match jsonDumpsDecimalEncoder v with
    | some s =>
        dGet (normalizeMetrics r).1 "metrics" = some (.str s) ∧
        (normalizeMetrics r).2 = []
    | none =>
        dGet (normalizeMetrics r).1 "metrics" = none ∧
        (normalizeMetrics r).2 = [.warnMetrics] := by
  unfold normalizeMetrics
  rw [hm]
  dsimp only
  rw [if_neg hv]
  cases hd : jsonDumpsDecimalEncoder v with
  | some s =>
      dsimp only
      exact ⟨by rw [dGet_dSet, if_pos rfl], rfl⟩
  | none =>
      dsimp only
      exact ⟨dGet_dDel_self r "metrics" hnd, rfl⟩

/-- C1 counterexample: the claim says the paginator page size is 100 by
default, but ClariPaginator.__init__ declares page_size = 50 as its
default; 100 is only what CallsStream passes explicitly. -/
theorem claim_C1_counterexample :
    (ClariPaginator.init ClariPaginator.defaultStartValue
        ClariPaginator.defaultPageSize).limit = 50 ∧
    (50 : Nat) ≠ 100 :=
  ⟨rfl, by decide⟩

/-- C1 (amended): the paginator maintains a fixed page size L, 50 by
default and configurable; the Calls stream creates its paginator with
L = 100 and initial cursor 0; if the calls array of a page holds strictly
fewer than L records then get_next returns none (so an empty first page
terminates immediately), and if the count equals L then the next cursor
equals the previous cursor plus L. -/
theorem claim_C1_pagination_contract :
    callsStreamPaginator.limit = 100 ∧
    callsStreamPaginator.currentSkip = 0 ∧
    (ClariPaginator.init ClariPaginator.defaultStartValue
        ClariPaginator.defaultPageSize).limit = 50 ∧
    (∀ (p : ClariPaginator) (calls : PyList), calls.length < p.limit →
      (p.getNext calls).1 = none) ∧
    (∀ (p : ClariPaginator) (calls : PyList), calls.length = p.limit →
      (p.getNext calls).1 = some (p.currentSkip + p.limit)) ∧
    (callsStreamPaginator.getNext .nil).1 = none := by
  refine ⟨rfl, rfl, rfl, ?_, ?_, rfl⟩
  · intro p calls h
    unfold ClariPaginator.getNext
    rw [if_pos h]
  · intro p calls h
    unfold ClariPaginator.getNext
    rw [if_neg (by rw [h]; exact lt_irrefl _)]

/-- C1 witness: the contract evaluated on the Calls stream paginator at
concrete pages of 99 and 100 records. -/
theorem claim_C1_pagination_contract_witness :
    (callsStreamPaginator.getNext (PyList.replicate 99 .null)).1 = none ∧
    (callsStreamPaginator.getNext (PyList.replicate 100 .null)).1 =
      some (callsStreamPaginator.currentSkip + callsStreamPaginator.limit) :=
  ⟨claim_C1_pagination_contract.2.2.2.1 callsStreamPaginator
      (PyList.replicate 99 .null) (by decide),
    claim_C1_pagination_contract.2.2.2.2.1 callsStreamPaginator
      (PyList.replicate 100 .null) (by decide)⟩

/-- C9: get_next is a pure function of the previous cursor and the page
record count: its result has the closed form deciding only on those two
values and the fixed configured page size, and two paginators that agree
on the configured page size and the current cursor produce identical
results on pages of equal record count. -/
theorem claim_C9_getNext_pure :
    (∀ (p : ClariPaginator) (calls : PyList),
      (p.getNext calls).1 =
        (if calls.length < p.limit then none
         else some (p.currentSkip + p.limit))) ∧
    (∀ (p q : ClariPaginator) (c1 c2 : PyList),
      p.limit = q.limit → p.currentSkip = q.currentSkip →
      c1.length = c2.length → p.getNext c1 = q.getNext c2) := by
  constructor
  · intro p calls
    unfold ClariPaginator.getNext
    split <;> rfl
  · intro p q c1 c2 hl hs hlen
    have hpq : p = q := by
      cases p
      cases q
      simp_all
    subst hpq
    unfold ClariPaginator.getNext
    rw [hlen]

/-- C9 witness: two separately built paginator states with equal cursor
and page size, applied to two different pages of equal record count. -/
theorem claim_C9_getNext_pure_witness :
    ClariPaginator.getNext ⟨100, 300⟩ (PyList.replicate 2 .null) =
      ClariPaginator.getNext ⟨100, 300⟩
        (.cons (.int 5) (.cons (.str "x") .nil)) :=
  claim_C9_getNext_pure.2 ⟨100, 300⟩ ⟨100, 300⟩ _ _ rfl rfl (by decide)

/-- C2 counterexample: a cursor of 0 is non-null, yet the builder omits
the skip parameter, because the code tests Python truthiness of the
token (`if next_page_token:`) and 0 is falsy. -/
theorem claim_C2_counterexample :
    (some (0 : Int)).isSome = true ∧
    dGet (callsGetUrlParams none (some 0)) "skip" = none :=
  ⟨rfl, rfl⟩

/-- C2 (amended): for every cursor value and every bookmark state, the
Calls request parameters always include limit = 100,
includePagination = "false", includePrivate = "false" and the fixed
filterStatus list PROCESSED, POST_PROCESSING_DONE; skip equals the
cursor exactly when the cursor is non-null and non-zero (Python
truthiness), and filterModifiedGt is present exactly when a bookmark
exists, formatted by strftime as YYYY-MM-DDTHH:MM:SSZ at second
precision. -/
theorem claim_C2_calls_request_params :
    ∀ (bookmark : Option PyDatetime) (token : Option Int),
      dGet (callsGetUrlParams bookmark token) "limit" = some (.int 100) ∧
      dGet (callsGetUrlParams bookmark token) "includePagination" =
        some (.str "false") ∧
      dGet (callsGetUrlParams bookmark token) "includePrivate" =
        some (.str "false") ∧
      dGet (callsGetUrlParams bookmark token) "filterStatus" =
        some (.list (.cons (.str "PROCESSED")
          (.cons (.str "POST_PROCESSING_DONE") .nil))) ∧
      dGet (callsGetUrlParams bookmark token) "skip" =
        (match token with
         | some n => if n = 0 then none else some (.int n)
         | none => none) ∧
      dGet (callsGetUrlParams bookmark token) "filterModifiedGt" =
        Option.map (fun t => .str (strftimeISOZ t)) bookmark := by
  intro bookmark token
  cases bookmark with
  | none =>
      cases token with
      | none => exact ⟨rfl, rfl, rfl, rfl, rfl, rfl⟩
      | some n =>
          by_cases hn : n = 0
          · subst hn
            exact ⟨rfl, rfl, rfl, rfl, rfl, rfl⟩
          · have hb : (!(n == 0)) = true := by simp [hn]
            simp only [callsGetUrlParams, hb, if_true, Option.isSome_none,
              Bool.and_false, Option.map_none']
            refine ⟨?_, ?_, ?_, ?_, ?_, ?_⟩ <;>
              simp [dGet_dSet, dGet, hn]
  | some t =>
      cases token with
      | none =>
          refine ⟨?_, ?_, ?_, ?_, ?_, ?_⟩ <;>
            simp [callsGetUrlParams, callsReplicationKey, dGet_dSet, dGet]
      | some n =>
          by_cases hn : n = 0
          · subst hn
            refine ⟨?_, ?_, ?_, ?_, ?_, ?_⟩ <;>
              simp [callsGetUrlParams, callsReplicationKey, dGet_dSet, dGet]
          · have hb : (!(n == 0)) = true := by simp [hn]
            refine ⟨?_, ?_, ?_, ?_, ?_, ?_⟩ <;>
              simp [callsGetUrlParams, callsReplicationKey, hb, dGet_dSet,
                dGet, hn]

theorem truthy_dict_of_dGet_some (c : PyDict) (k : String) (v : PyVal)
    (h : dGet c k = some v) : truthy (.dict c) = true := by
  cases c with
  | nil => simp [dGet] at h
  | cons k1 v1 tl => simp [truthy, PyDict.length]

/-- C8 counterexample: a context that contains a call_id mapped to the
empty string, yet the builder omits the id parameter and logs the
missing-call-id warning, because the code tests Python truthiness of
context.get("call_id") and the empty string is falsy. -/
theorem claim_C8_counterexample :
    dGet (PyDict.cons "call_id" (.str "") .nil) "call_id" =
      some (.str "") ∧
    dGet (detailsGetUrlParams
      (some (PyDict.cons "call_id" (.str "") .nil))).1 "id" = none ∧
    LogEvt.warnNoCallId ∈ (detailsGetUrlParams
      (some (PyDict.cons "call_id" (.str "") .nil))).2 :=
  ⟨rfl, rfl, by decide⟩

/-- C8 (amended): the Detail stream request parameters always contain
includeTranscript = "true" and includeSummary = "true"; when the context
contains a truthy call_id the upstream parameter named id (not callId)
is set to that call_id; when the context is absent, or its call_id is
absent, null or empty, a warning is logged and the parameters are
returned without an id filter rather than failing. -/
theorem claim_C8_details_request_params :
    (∀ (context : Option PyDict),
      dGet (detailsGetUrlParams context).1 "includeTranscript" =
        some (.str "true") ∧
      dGet (detailsGetUrlParams context).1 "includeSummary" =
        some (.str "true")) ∧
    (∀ (c : PyDict) (v : PyVal), dGet c "call_id" = some v →
      truthy v = true →
      dGet (detailsGetUrlParams (some c)).1 "id" = some v) ∧
    (∀ (c : PyDict),
      (dGet c "call_id" = none ∨ dGet c "call_id" = some .null ∨
        dGet c "call_id" = some (.str "")) →
      dGet (detailsGetUrlParams (some c)).1 "id" = none ∧
      LogEvt.warnNoCallId ∈ (detailsGetUrlParams (some c)).2) ∧
    (dGet (detailsGetUrlParams none).1 "id" = none ∧
      LogEvt.warnNoCallId ∈ (detailsGetUrlParams none).2) := by
  refine ⟨?_, ?_, ?_, rfl, by decide⟩
  · intro context
    cases context with
    | none => exact ⟨rfl, rfl⟩
    | some c =>
        simp only [detailsGetUrlParams]
        split
        · constructor <;> simp [dGet_dSet, dGet]
        · exact ⟨rfl, rfl⟩
  · intro c v hv ht
    have hc : truthy (.dict c) = true := truthy_dict_of_dGet_some c _ _ hv
    simp only [detailsGetUrlParams, hv, Option.getD_some, hc, ht,
      Bool.and_self, if_true]
    simp [dGet_dSet]
  · intro c h
    rcases h with h | h | h <;>
      simp [detailsGetUrlParams, h, truthy, dGet, dGet_dSet]

/-- C8 witness: the positive branch of the contract at a concrete
context holding a non-empty call_id. -/
theorem claim_C8_details_request_params_witness :
    dGet (detailsGetUrlParams
      (some (PyDict.cons "call_id" (.str "abc") .nil))).1 "id" =
      some (.str "abc") :=
  claim_C8_details_request_params.2.1
    (PyDict.cons "call_id" (.str "abc") .nil) (.str "abc") rfl rfl

theorem normalizeTimestamp_str (parseIso : String → Option PyDatetime)
    (r : PyDict) (s : String)
    (hm : dGet r "last_modified_time" = some (.str s)) (hs : s ≠ "") :
    normalizeTimestamp parseIso r =
      (match parseIso (pyReplace 'Z' "+00:00" s) with
       | some t => (dSet r "last_modified_time" (.datetime t), [])
       | none => (r, [.warnTimestamp s])) := by
  unfold normalizeTimestamp
  rw [hm]
  have ht : truthy (.str s) = true := by simp [truthy, hs]
  dsimp only
  rw [if_pos ht]

/-- C3 counterexample: a record whose last_modified_time is the empty
string, which no ISO-8601 parser accepts; the claim then demands a
logged warning, but the code logs nothing (the empty string is falsy, so
the conversion branch is skipped entirely). -/
theorem claim_C3_counterexample :
    (fun _ : String => (none : Option PyDatetime))
      (pyReplace 'Z' "+00:00" "") = none ∧
    (normalizeCallRecord (fun _ => none)
      (PyDict.cons "last_modified_time" (.str "") .nil)).2 = [] ∧
    dGet (normalizeCallRecord (fun _ => none)
      (PyDict.cons "last_modified_time" (.str "") .nil)).1
        "last_modified_time" = some (.str "") :=
  ⟨rfl, rfl, rfl⟩

/-- C3 (amended): for every record whose last_modified_time field is a
non-empty string s, the field is parsed as an ISO-8601 timestamp with
every "Z" replaced by the UTC offset "+00:00"; on success the field
becomes the parsed datetime, on failure a warning is logged and the
field is left equal to the original unmodified string, and in both cases
the record is still emitted. -/
theorem claim_C3_timestamp_normalization :
    ∀ (parseIso : String → Option PyDatetime) (r : PyDict) (s : String),
      dGet r "last_modified_time" = some (.str s) → s ≠ "" →
      (match parseIso (pyReplace 'Z' "+00:00" s) with
       | some t =>
           dGet (normalizeCallRecord parseIso r).1 "last_modified_time" =
             some (.datetime t) ∧
           (∀ u, LogEvt.warnTimestamp u ∉ (normalizeCallRecord parseIso r).2)
       | none =>
           dGet (normalizeCallRecord parseIso r).1 "last_modified_time" =
             some (.str s) ∧
           LogEvt.warnTimestamp s ∈ (normalizeCallRecord parseIso r).2) ∧
      (∀ rs, (callsParseResponse parseIso (r :: rs)).1 =
        (normalizeCallRecord parseIso r).1 ::
          (callsParseResponse parseIso rs).1) := by
  intro parseIso r s hm hs
  refine ⟨?_, fun rs => rfl⟩
  have hts := normalizeTimestamp_str parseIso r s hm hs
  unfold normalizeCallRecord
  rw [hts]
  cases hp : parseIso (pyReplace 'Z' "+00:00" s) with
  | some t =>
      dsimp only
      constructor
      · rw [normalizeMetrics_preserves _ _ (by decide), dGet_dSet,
          if_pos rfl]
      · intro u
        simp only [List.nil_append]
        exact normalizeMetrics_no_warnTimestamp _ u
  | none =>
      dsimp only
      constructor
      · rw [normalizeMetrics_preserves _ _ (by decide), hm]
      · simp

/-- C3 witness: a record carrying the timestamp 2024-01-01T00:00:00Z
with a parser that accepts exactly its Z-rewritten form. -/
theorem claim_C3_timestamp_normalization_witness :
    dGet (normalizeCallRecord
      (fun u => if u == "2024-01-01T00:00:00+00:00"
        then some ⟨2024, 1, 1, 0, 0, 0, 0⟩ else none)
      (PyDict.cons "last_modified_time"
        (.str "2024-01-01T00:00:00Z") .nil)).1 "last_modified_time" =
      some (.datetime ⟨2024, 1, 1, 0, 0, 0, 0⟩) := by
  have h := claim_C3_timestamp_normalization
    (fun u => if u == "2024-01-01T00:00:00+00:00"
      then some ⟨2024, 1, 1, 0, 0, 0, 0⟩ else none)
    (PyDict.cons "last_modified_time"
      (.str "2024-01-01T00:00:00Z") .nil)
    "2024-01-01T00:00:00Z" rfl (by decide)
  have e : (fun u => if u == "2024-01-01T00:00:00+00:00"
      then some (⟨2024, 1, 1, 0, 0, 0, 0⟩ : PyDatetime) else none)
      (pyReplace 'Z' "+00:00" "2024-01-01T00:00:00Z") =
      some ⟨2024, 1, 1, 0, 0, 0, 0⟩ := by decide
  rw [e] at h
  exact h.1.1

/-- C10: when the last_modified_time field is absent, None or the empty
string, the Calls normalization leaves the field exactly as it is, logs
no timestamp warning, does not invoke the timestamp parser at all (the
result is the same for every parser), and the record is still
emitted. -/
theorem claim_C10_falsy_timestamp_untouched :
    ∀ (p q : String → Option PyDatetime) (r : PyDict),
      (dGet r "last_modified_time" = none ∨
        dGet r "last_modified_time" = some .null ∨
        dGet r "last_modified_time" = some (.str "")) →
      dGet (normalizeCallRecord p r).1 "last_modified_time" =
        dGet r "last_modified_time" ∧
      (∀ u, LogEvt.warnTimestamp u ∉ (normalizeCallRecord p r).2) ∧
      normalizeCallRecord p r = normalizeCallRecord q r ∧
      (∀ rs, (callsParseResponse p (r :: rs)).1 =
        (normalizeCallRecord p r).1 :: (callsParseResponse p rs).1) := by
  intro p q r h
  have hts : ∀ (f : String → Option PyDatetime),
      normalizeTimestamp f r = (r, []) := by
    intro f
    unfold normalizeTimestamp
    rcases h with h | h | h <;> rw [h] <;> rfl
  refine ⟨?_, ?_, ?_, fun rs => rfl⟩
  · unfold normalizeCallRecord
    rw [hts p]
    exact normalizeMetrics_preserves r _ (by decide)
  · intro u
    unfold normalizeCallRecord
    rw [hts p]
    simpa using normalizeMetrics_no_warnTimestamp r u
  · unfold normalizeCallRecord
    rw [hts p, hts q]

/-- C10 witness: the contract at a record with no last_modified_time
field, under two different parsers. -/
theorem claim_C10_falsy_timestamp_untouched_witness :
    dGet (normalizeCallRecord (fun _ => none)
      (PyDict.cons "id" (.str "c1") .nil)).1 "last_modified_time" =
      dGet (PyDict.cons "id" (.str "c1") .nil) "last_modified_time" ∧
    normalizeCallRecord (fun _ => none)
        (PyDict.cons "id" (.str "c1") .nil) =
      normalizeCallRecord (fun _ => some ⟨1, 1, 1, 0, 0, 0, 0⟩)
        (PyDict.cons "id" (.str "c1") .nil) := by
  have h := claim_C10_falsy_timestamp_untouched (fun _ => none)
    (fun _ => some ⟨1, 1, 1, 0, 0, 0, 0⟩)
    (PyDict.cons "id" (.str "c1") .nil) (Or.inl rfl)
  exact ⟨h.1, h.2.2.1⟩

/-- C4: for every record of either stream whose metrics field is present
and non-null, the Decimal-safe serialization is attempted: on success
the field is replaced by the JSON string, on failure a warning is logged
and the field is deleted, and in both cases the record is still
emitted. -/
theorem claim_C4_metrics_serialization :
    ∀ (p : String → Option PyDatetime) (r : PyDict) (v : PyVal),
      dNodupKeys r = true → dGet r "metrics" = some v → v ≠ .null →
      (match jsonDumpsDecimalEncoder v with
       | some s =>
           dGet (normalizeCallRecord p r).1 "metrics" = some (.str s) ∧
           dGet (normalizeDetailRecord r).1 "metrics" = some (.str s)
       | none =>
           dGet (normalizeCallRecord p r).1 "metrics" = none ∧
           LogEvt.warnMetrics ∈ (normalizeCallRecord p r).2 ∧
           dGet (normalizeDetailRecord r).1 "metrics" = none ∧
           LogEvt.warnMetrics ∈ (normalizeDetailRecord r).2) ∧
      (∀ rs, (callsParseResponse p (r :: rs)).1 =
        (normalizeCallRecord p r).1 :: (callsParseResponse p rs).1) := by
  intro p r v hnd hm hv
  refine ⟨?_, fun rs => rfl⟩
  have hm1 : dGet (normalizeTimestamp p r).1 "metrics" = some v := by
    rw [normalizeTimestamp_preserves p r "metrics" (by decide)]
    exact hm
  have hnd1 : dNodupKeys (normalizeTimestamp p r).1 = true :=
    normalizeTimestamp_nodup p r hnd
  have hcalls := normalizeMetrics_of_some (normalizeTimestamp p r).1 v
    hnd1 hm1 hv
  have hdet := normalizeMetrics_of_some r v hnd hm hv
  unfold normalizeCallRecord normalizeDetailRecord
  cases hd : jsonDumpsDecimalEncoder v with
  | some s =>
      rw [hd] at hcalls hdet
      exact ⟨hcalls.1, hdet.1⟩
  | none =>
      rw [hd] at hcalls hdet
      refine ⟨hcalls.1, ?_, hdet.1, by rw [hdet.2]; simp⟩
      simp [hcalls.2]

/-- C4 witness: a record whose metrics holds a non-serializable Python
object, evaluated through the failure branch of the contract. -/
theorem claim_C4_metrics_serialization_witness :
    dGet (normalizeCallRecord (fun _ => none)
      (PyDict.cons "metrics" (.obj "set") .nil)).1 "metrics" = none ∧
    LogEvt.warnMetrics ∈ (normalizeCallRecord (fun _ => none)
      (PyDict.cons "metrics" (.obj "set") .nil)).2 ∧
    dGet (normalizeDetailRecord
      (PyDict.cons "metrics" (.obj "set") .nil)).1 "metrics" = none := by
  have h := claim_C4_metrics_serialization (fun _ => none)
    (PyDict.cons "metrics" (.obj "set") .nil) (.obj "set")
    (by decide) rfl (fun hc => PyVal.noConfusion hc)
  have e : jsonDumpsDecimalEncoder (.obj "set") = none := rfl
  rw [e] at h
  exact ⟨h.1.1, h.1.2.1, h.1.2.2.1⟩

/-- C6 counterexample: a record that is already normalized (its
last_modified_time a datetime, its metrics the JSON string produced for
an empty mapping) is re-normalized into a record whose metrics is the
JSON string literal of that string: re-parsing double-encodes instead of
leaving the field values unchanged. -/
theorem claim_C6_counterexample :
    jsonDumpsDecimalEncoder (.dict .nil) = some "\x7b\x7d" ∧
    dGet (normalizeCallRecord (fun _ => none)
      (PyDict.cons "last_modified_time" (.datetime ⟨2024, 1, 1, 0, 0, 0, 0⟩)
        (PyDict.cons "metrics" (.str "\x7b\x7d") .nil))).1 "metrics" =
      some (.str "\"\x7b\x7d\"") ∧
    PyVal.str "\"\x7b\x7d\"" ≠ PyVal.str "\x7b\x7d" :=
  ⟨rfl, rfl, by decide⟩

/-- C6 (amended): re-running the Calls normalization on an already
normalized record (last_modified_time a datetime, metrics a JSON string
m) does not throw and still emits the record, and leaves
last_modified_time unchanged; the metrics field however is serialized
again, becoming the JSON string literal of m — the normalization is not
idempotent on metrics, it double-encodes. -/
theorem claim_C6_renormalization :
    ∀ (p : String → Option PyDatetime) (r : PyDict) (t : PyDatetime)
      (m : String),
      dGet r "last_modified_time" = some (.datetime t) →
      dGet r "metrics" = some (.str m) →
      dGet (normalizeCallRecord p r).1 "last_modified_time" =
        some (.datetime t) ∧
      dGet (normalizeCallRecord p r).1 "metrics" =
        some (.str ("\"" ++ jsonEscape m ++ "\"")) ∧
      (∀ rs, (callsParseResponse p (r :: rs)).1 =
        (normalizeCallRecord p r).1 :: (callsParseResponse p rs).1) := by
  intro p r t m hlm hm
  have hts : normalizeTimestamp p r = (r, []) := by
    unfold normalizeTimestamp
    rw [hlm]
    rfl
  have hmet : normalizeMetrics r =
      (dSet r "metrics" (.str ("\"" ++ jsonEscape m ++ "\"")), []) := by
    unfold normalizeMetrics
    rw [hm]
    dsimp only
    rw [if_neg (fun hc => PyVal.noConfusion hc)]
    rfl
  refine ⟨?_, ?_, fun rs => rfl⟩
  · unfold normalizeCallRecord
    rw [hts]
    dsimp only
    rw [hmet]
    dsimp only
    rw [dGet_dSet, if_neg (by decide)]
    exact hlm
  · unfold normalizeCallRecord
    rw [hts]
    dsimp only
    rw [hmet]
    dsimp only
    rw [dGet_dSet, if_pos rfl]

/-- C6 witness: the amended contract evaluated at a concrete already
normalized record. -/
theorem claim_C6_renormalization_witness :
    dGet (normalizeCallRecord (fun _ => none)
      (PyDict.cons "last_modified_time" (.datetime ⟨2024, 1, 1, 0, 0, 0, 0⟩)
        (PyDict.cons "metrics" (.str "null") .nil))).1
      "last_modified_time" = some (.datetime ⟨2024, 1, 1, 0, 0, 0, 0⟩) ∧
    dGet (normalizeCallRecord (fun _ => none)
      (PyDict.cons "last_modified_time" (.datetime ⟨2024, 1, 1, 0, 0, 0, 0⟩)
        (PyDict.cons "metrics" (.str "null") .nil))).1 "metrics" =
      some (.str ("\"" ++ jsonEscape "null" ++ "\"")) := by
  have h := claim_C6_renormalization (fun _ => none)
    (PyDict.cons "last_modified_time" (.datetime ⟨2024, 1, 1, 0, 0, 0, 0⟩)
      (PyDict.cons "metrics" (.str "null") .nil))
    ⟨2024, 1, 1, 0, 0, 0, 0⟩ "null" rfl rfl
  exact ⟨h.1, h.2.1⟩

/-- C5: a 404 detail response is accepted by validate_response and
yields zero records; a body on which JSON parsing raises yields zero
records; a body that is not a mapping, or lacks a "call" key, yields
zero records without raising; and every other response whose "call"
value is a record yields exactly that one record, after metrics
normalization. -/
theorem claim_C5_details_response_handling :
    (∀ (superValidate : Nat → Except String Unit),
      detailsValidateResponse superValidate 404 = .ok ()) ∧
    (∀ (body : Option PyVal),
      (detailsParseResponse ⟨404, body⟩).1 = []) ∧
    (∀ (status : Nat), (detailsParseResponse ⟨status, none⟩).1 = []) ∧
    (∀ (status : Nat) (j : PyVal), (∀ d, j ≠ .dict d) →
      (detailsParseResponse ⟨status, some j⟩).1 = []) ∧
    (∀ (status : Nat) (d : PyDict), dGet d "call" = none →
      (detailsParseResponse ⟨status, some (.dict d)⟩).1 = []) ∧
    (∀ (status : Nat) (d : PyDict) (rec : PyDict), status ≠ 404 →
      dGet d "call" = some (.dict rec) →
      (detailsParseResponse ⟨status, some (.dict d)⟩).1 =
        [.dict (normalizeDetailRecord rec).1]) := by
  refine ⟨fun sv => rfl, fun body => rfl, ?_, ?_, ?_, ?_⟩
  · intro status
    unfold detailsParseResponse
    split <;> rfl
  · intro status j h
    unfold detailsParseResponse
    split
    · rfl
    · cases j with
      | dict d => exact absurd rfl (h d)
      | null => rfl
      | bool b => rfl
      | int n => rfl
      | float q => rfl
      | str s => rfl
      | decimal q => rfl
      | datetime t => rfl
      | obj name => rfl
      | list xs => rfl
  · intro status d hcall
    unfold detailsParseResponse
    split
    · rfl
    · dsimp only
      rw [hcall]
  · intro status d rec hst hcall
    have hb : (status == 404) = false := by simpa using hst
    unfold detailsParseResponse
    rw [hb]
    simp only [Bool.false_eq_true, if_false]
    rw [hcall]
    rfl

/-- C5 witness: the positive clause at a concrete 200 response carrying
a call record, and the zero-record clause at a non-mapping call
value. -/
theorem claim_C5_details_response_handling_witness :
    (detailsParseResponse ⟨200, some (.dict (PyDict.cons "call"
      (.dict (PyDict.cons "id" (.str "c1") .nil)) .nil))⟩).1 =
      [.dict (normalizeDetailRecord
        (PyDict.cons "id" (.str "c1") .nil)).1] ∧
    (detailsParseResponse ⟨200, some (.int 5)⟩).1 = [] :=
  ⟨claim_C5_details_response_handling.2.2.2.2.2 200
      (PyDict.cons "call" (.dict (PyDict.cons "id" (.str "c1") .nil)) .nil)
      (PyDict.cons "id" (.str "c1") .nil) (by decide) rfl,
    claim_C5_details_response_handling.2.2.2.1 200 (.int 5)
      (fun d hc => PyVal.noConfusion hc)⟩

/-- C7: the Decimal-safe encoder behaves exactly like standard JSON
serialization after replacing every nested Decimal by its float
conversion, and it never fails on a value built only from standard
serializable pieces and Decimals. -/
theorem claim_C7_decimal_encoder :
    (∀ v : PyVal,
      jsonDumpsDecimalEncoder v = jsonDumpsStd (mapDecimalsToFloat v)) ∧
    (∀ v : PyVal, stdWithDecimals v = true →
      (jsonDumpsDecimalEncoder v).isSome = true) :=
  ⟨fun v => serVal_decimal_eq v, fun v h => serVal_decimal_total v h⟩

/-- C7 witness: the encoder contract at a metrics object holding a
nested Decimal score. -/
theorem claim_C7_decimal_encoder_witness :
    jsonDumpsDecimalEncoder
        (.dict (.cons "score" (.decimal (mkRat 7 2)) .nil)) =
      jsonDumpsStd (mapDecimalsToFloat
        (.dict (.cons "score" (.decimal (mkRat 7 2)) .nil))) ∧
    (jsonDumpsDecimalEncoder
        (.dict (.cons "score" (.decimal (mkRat 7 2)) .nil))).isSome =
      true :=
  ⟨claim_C7_decimal_encoder.1 _, claim_C7_decimal_encoder.2 _ (by decide)⟩
